import Mathlib

/-!
Shallow embedding of `infinite-endpoint-status-proxy.mjs`: a read-only
health-probing HTTP service.  The embedding models

* the environment-derived configuration (`Config`, `envOr`, `ALLOW_ORIGINS`,
  `CHECKS`),
* CORS origin resolution (`resolveAllowedOrigin`, `jsonHeaders`),
* the promise/timeout machinery (`Settled`, `withTimeout`) and the three
  probe routines (`probeJsonRpc`, `probeTendermintStatus`, `probeTcp`),
* the probe-orchestration loop (`runChecks`) and the HTTP request handler
  (`handleRequest`).

Asynchronous I/O is modelled by explicit settlement data: a promise is an
`Option (Settled a)`, `none` meaning it never settles, and `Settled`
carrying the wall-clock time (in milliseconds from probe start) at which
it settles together with its resolution or rejection.  A JS exception is
an `Option String`: `some msg` is an `Error` whose `.message` is `msg`,
`none` is a thrown non-`Error` value.  JSON documents are the `Json`
inductive below with integer-valued numbers (no claim depends on float
arithmetic).
-/

namespace StatusProxy

/-- Parsed JSON values as JavaScript sees them after `JSON.parse` /
`res.json()` (duplicate object keys already collapsed; numbers restricted
to integers, which is all the service's bodies use). -/
inductive Json where
  | null
  | bool (b : Bool)
  | num (n : Int)
  | str (s : String)
  | arr (elems : List Json)
  | obj (fields : List (String × Json))

/-- JavaScript truthiness of a JSON value. -/
def truthy : Json → Bool
  | .null => false
  | .bool b => b
  | .num n => n != 0
  | .str s => s != ""
  | .arr _ => true
  | .obj _ => true

/-- Truthiness of a possibly-undefined value (property access can yield
`undefined`, modelled `none`, which is falsy). -/
def truthyOpt : Option Json → Bool
  | none => false
  | some j => truthy j

def lookupField : List (String × Json) → String → Option Json
  | [], _ => none
  | (k', v) :: rest, k => if k' == k then some v else lookupField rest k

/-- JavaScript property access `x?.k`: `some` the field's value when `x` is
an object carrying field `k`, `none` (undefined) otherwise. -/
def getField : Json → String → Option Json
  | .obj fs, k => lookupField fs k
  | _, _ => none

mutual

/-- JavaScript `String(x)` coercion of a JSON value, simplified to the
shapes that occur here (primitive values; arrays join with commas;
objects print as "[object Object]"). -/
def jsToString : Json → String
  | .null => "null"
  | .bool b => cond b "true" "false"
  | .num n => toString n
  | .str s => s
  | .arr xs => String.intercalate "," (jsToStringList xs)
  | .obj _ => "[object Object]"

def jsToStringList : List Json → List String
  | [] => []
  | x :: xs => jsToString x :: jsToStringList xs

end

/-- Environment-style configuration: the `process.env` variables the script
reads that the claims depend on.  `none` models an unset variable. -/
structure Config where
  INFINITE_EVM_URL : Option String := none
  INFINITE_COMET_URL : Option String := none
  INFINITE_GRPC_HOST : Option String := none
  INFINITE_GRPC_PORT : Option String := none
  INFINITE_EVM_TESTNET_URL : Option String := none
  INFINITE_COMET_TESTNET_URL : Option String := none
  INFINITE_GRPC_TESTNET_HOST : Option String := none
  INFINITE_GRPC_TESTNET_PORT : Option String := none
  CORS_ORIGIN : Option String := none
deriving DecidableEq

/-- `process.env.X || dflt`: an unset or empty (falsy) variable falls back
to the default. -/
def envOr (v : Option String) (dflt : String) : String :=
  match v with
  | some s => if s == "" then dflt else s
  | none => dflt

/-- The whitespace characters `String.prototype.trim` strips, restricted
to the ASCII ones configuration values use. -/
def isJsWhitespace (c : Char) : Bool :=
  c == ' ' || c == '\t' || c == '\n' || c == '\r'

/-- JS `value.trim()`. -/
def jsTrim (s : String) : String :=
  ⟨((s.data.dropWhile isJsWhitespace).reverse.dropWhile isJsWhitespace).reverse⟩

def splitOnCommaList : List Char → List (List Char)
  | [] => [[]]
  | c :: rest =>
    let r := splitOnCommaList rest
    if c == ',' then [] :: r
    else
      match r with
      | [] => [[c]]
      | g :: gs => (c :: g) :: gs

/-- JS `value.split(",")`: the comma-separated fields, in order; the empty
string splits to `[""]`. -/
def jsSplitOnComma (s : String) : List String :=
  (splitOnCommaList s.data).map (fun l => ⟨l⟩)

def decDigitsValue : List Char → Nat → Option Nat
  | [], acc => some acc
  | c :: rest, acc =>
    if c.isDigit then decDigitsValue rest (acc * 10 + (c.toNat - '0'.toNat)) else none

/-- Simplified JS `Number()` on the strings ports take: a trimmed decimal
digit string parses to its value, the empty string to 0, anything else is
NaN (`none`). -/
def jsStringToNumber (s : String) : Option Nat :=
  match (jsTrim s).data with
  | [] => some 0
  | l => decDigitsValue l 0

/-- `CORS_ORIGIN.split(",").map(trim).filter(Boolean)`. -/
def allowOriginsOf (s : String) : List String :=
  ((jsSplitOnComma s).map jsTrim).filter (fun t => t != "")

def CORS_ORIGIN (cfg : Config) : String :=
  envOr cfg.CORS_ORIGIN "https://foxxone.one"

def ALLOW_ORIGINS (cfg : Config) : List String :=
  allowOriginsOf (CORS_ORIGIN cfg)

/-- A check descriptor from the `CHECKS` registry: plain object with a
string `kind` discriminator and kind-specific target fields (absent
fields are `none`). -/
structure Check where
  id : String
  kind : String
  url : Option String := none
  host : Option String := none
  port : Option Nat := none
deriving DecidableEq

/-- The static check registry, built once from configuration with the
script's built-in defaults. -/
def CHECKS (cfg : Config) : List Check :=
  [ { id := "infinite-evm", kind := "jsonrpc",
      url := some (envOr cfg.INFINITE_EVM_URL "https://evm-rpc.infinitedrive.xyz") },
    { id := "infinite-comet", kind := "tendermint",
      url := some (envOr cfg.INFINITE_COMET_URL "https://comet-rpc.infinitedrive.xyz") },
    { id := "infinite-grpc", kind := "tcp",
      host := some (envOr cfg.INFINITE_GRPC_HOST "grpc.infinitedrive.xyz"),
      port := jsStringToNumber (envOr cfg.INFINITE_GRPC_PORT "443") },
    { id := "infinite-evm-testnet", kind := "jsonrpc",
      url := some (envOr cfg.INFINITE_EVM_TESTNET_URL "https://evm-rpc-testnet.infinitedrive.xyz") },
    { id := "infinite-comet-testnet", kind := "tendermint",
      url := some (envOr cfg.INFINITE_COMET_TESTNET_URL "https://comet-rpc-testnet.infinitedrive.xyz") },
    { id := "infinite-grpc-testnet", kind := "tcp",
      host := some (envOr cfg.INFINITE_GRPC_TESTNET_HOST "grpc-testnet.infinitedrive.xyz"),
      port := jsStringToNumber (envOr cfg.INFINITE_GRPC_TESTNET_PORT "443") } ]

/-- `resolveAllowedOrigin(requestOrigin)`, parametrised by the global
`ALLOW_ORIGINS` list it reads.  An absent request `Origin` header arrives
as the empty string (the handler normalises non-string headers to `""`). -/
def resolveAllowedOrigin (allowOrigins : List String) (requestOrigin : String) : String :=
  if allowOrigins.length == 0 then "*"
  else if allowOrigins.contains "*" then "*"
  else if requestOrigin == "" then allowOrigins.headD ""
  else if allowOrigins.contains requestOrigin then requestOrigin
  else allowOrigins.headD ""

/-- `jsonHeaders(requestOrigin)`: the headers every response carries. -/
def jsonHeaders (allowOrigins : List String) (requestOrigin : String) : List (String × String) :=
  [ ("content-type", "application/json; charset=utf-8"),
    ("cache-control", "no-store"),
    ("access-control-allow-origin", resolveAllowedOrigin allowOrigins requestOrigin),
    ("access-control-allow-methods", "GET, OPTIONS"),
    ("access-control-allow-headers", "content-type") ]

/-- A settled promise: the wall-clock millisecond offset (from probe start)
at which it settles, and its resolution (`Except.ok`) or rejection
(`Except.error`, carrying the thrown value). -/
structure Settled (α : Type) where
  time : Nat
  result : Except (Option String) α

def timeoutMessage (timeoutMs : Nat) : String :=
  "timeout after " ++ toString timeoutMs ++ "ms"

/-- `withTimeout(promise, timeoutMs)`: races the promise against a timer
that rejects with `Error("timeout after <N>ms")`.  A promise that never
settles (`none`) or settles after the timer fires loses the race. -/
def withTimeout {α : Type} (promise : Option (Settled α)) (timeoutMs : Nat) : Settled α :=
  match promise with
  | some s =>
    if s.time ≤ timeoutMs then s
    else ⟨timeoutMs, .error (some (timeoutMessage timeoutMs))⟩
  | none => ⟨timeoutMs, .error (some (timeoutMessage timeoutMs))⟩

/-- The value `fetch` resolves with: HTTP status, and the promise returned
by `res.json()` (its settle time measured from the fetch's settlement;
`none` if the body never finishes arriving). -/
structure FetchResponse where
  status : Nat
  jsonBody : Option (Settled Json)

/-- `Response.ok`: HTTP status in the 200-299 success range. -/
def FetchResponse.ok (res : FetchResponse) : Bool :=
  200 ≤ res.status && res.status ≤ 299

/-- `probeJsonRpc(url)`: POSTs a JSON-RPC envelope (the fetch outcome is
the environment parameter), races only the fetch against the timeout,
then reads the body outside the race; throws on non-ok status or a truthy
JSON-RPC `error` member; resolves with `Date.now() - start`.  Returns
`none` when the probe's promise never settles (ok response whose body
read never completes). -/
def probeJsonRpc (fetchResult : Option (Settled FetchResponse)) (timeoutMs : Nat) :
    Option (Settled Nat) :=
  let r := withTimeout fetchResult timeoutMs
  match r.result with
  | .error e => some ⟨r.time, .error e⟩
  | .ok res =>
    if !res.ok then some ⟨r.time, .error (some ("HTTP " ++ toString res.status))⟩
    else
      match res.jsonBody with
      | none => none
      | some js =>
        match js.result with
        | .error e => some ⟨r.time + js.time, .error e⟩
        | .ok data =>
          match getField data "error" with
          | some errVal =>
            if truthy errVal then
              some ⟨r.time + js.time, .error (some (jsonRpcErrorDetail errVal))⟩
            else some ⟨r.time + js.time, .ok (r.time + js.time)⟩
          | none => some ⟨r.time + js.time, .ok (r.time + js.time)⟩
where
  /-- `new Error(data.error.message || "json-rpc error").message`. -/
  jsonRpcErrorDetail (errVal : Json) : String :=
    match getField errVal "message" with
    | some m => if truthy m then jsToString m else "json-rpc error"
    | none => "json-rpc error"

/-- `probeTendermintStatus(url)`: GETs `url/status` under the timeout;
throws on non-ok status; resolves with the elapsed time.  Always settles. -/
def probeTendermintStatus (fetchResult : Option (Settled FetchResponse)) (timeoutMs : Nat) :
    Settled Nat :=
  let r := withTimeout fetchResult timeoutMs
  match r.result with
  | .error e => ⟨r.time, .error e⟩
  | .ok res =>
    if !res.ok then ⟨r.time, .error (some ("HTTP " ++ toString res.status))⟩
    else ⟨r.time, .ok r.time⟩

/-- `probeTcp(host, port)`: dials under the timeout; the connection promise
resolves `true` on connect or rejects with the socket error; resolves with
the elapsed time.  Always settles. -/
def probeTcp (connectResult : Option (Settled Bool)) (timeoutMs : Nat) : Settled Nat :=
  let r := withTimeout connectResult timeoutMs
  match r.result with
  | .error e => ⟨r.time, .error e⟩
  | .ok _ => ⟨r.time, .ok r.time⟩

/-- The settled result of the probe call awaited for one check inside the
`runChecks` loop: it resolved with a latency or it threw. -/
inductive ProbeResult where
  | success (latencyMs : Nat)
  | failure (thrown : Option String)
deriving DecidableEq

/-- Re-raise a settled probe result inside the `try` block. -/
def liftResult : ProbeResult → Except (Option String) Nat
  | .success l => .ok l
  | .failure e => .error e

/-- The body of the per-check `try` block: `latencyMs` starts at 0 and the
three kind guards each (sequentially) overwrite it with the awaited probe
result; an exception aborts the block. -/
def tryBody (results : Check → ProbeResult) (c : Check) : Except (Option String) Nat := do
  let latency0 : Nat := 0
  let latency1 ← if c.kind == "jsonrpc" then liftResult (results c) else pure latency0
  let latency2 ← if c.kind == "tendermint" then liftResult (results c) else pure latency1
  let latency3 ← if c.kind == "tcp" then liftResult (results c) else pure latency2
  pure latency3

/-- `err instanceof Error ? err.message : "request failed"`. -/
def caughtDetail : Option String → String
  | some m => m
  | none => "request failed"

/-- One entry of the `statuses` object. -/
structure Outcome where
  status : String
  detail : String
  latency_ms : Option Nat
deriving DecidableEq

/-- Lines 120-131 of the source: the UP entry built on a completed `try`
block, or the DOWN entry built in the `catch`. -/
def checkOutcome (tryResult : Except (Option String) Nat) : Outcome :=
  match tryResult with
  | .ok latencyMs =>
    { status := "UP", detail := "Latency " ++ toString latencyMs ++ "ms",
      latency_ms := some latencyMs }
  | .error err =>
    { status := "DOWN", detail := caughtDetail err, latency_ms := none }

/-- JS object property assignment `m[k] = v`: replaces in place when the
key exists, appends otherwise (insertion order preserved). -/
def objSet {α : Type} (m : List (String × α)) (k : String) (v : α) : List (String × α) :=
  if m.any (fun p => p.1 == k) then
    m.map (fun p => if p.1 == k then (k, v) else p)
  else m ++ [(k, v)]

/-- JS object property read `m[k]`. -/
def objGet {α : Type} : List (String × α) → String → Option α
  | [], _ => none
  | (k', v) :: rest, k => if k' == k then some v else objGet rest k

/-- The `statuses` object `runChecks` accumulates over the registry. -/
def runChecksStatuses (cfg : Config) (results : Check → ProbeResult) :
    List (String × Outcome) :=
  (CHECKS cfg).foldl
    (fun statuses c => objSet statuses c.id (checkOutcome (tryBody results c))) []

structure StatusReport where
  checked_at : String
  source : String
  statuses : List (String × Outcome)

/-- `runChecks()`: iterates the registry, guards each probe with
`try`/`catch`, and assembles the report.  `now` is the
`new Date().toISOString()` timestamp. -/
def runChecks (cfg : Config) (results : Check → ProbeResult) (now : String) : StatusReport :=
  { checked_at := now, source := "server", statuses := runChecksStatuses cfg results }

def outcomeToJson (o : Outcome) : Json :=
  Json.obj
    [ ("status", Json.str o.status),
      ("detail", Json.str o.detail),
      ("latency_ms", match o.latency_ms with | some l => Json.num l | none => Json.null) ]

def reportToJson (rep : StatusReport) : Json :=
  Json.obj
    [ ("checked_at", Json.str rep.checked_at),
      ("source", Json.str rep.source),
      ("statuses", Json.obj (rep.statuses.map (fun p => (p.1, outcomeToJson p.2)))) ]

/-- An incoming HTTP request as the handler sees it: method, `req.url`
(`none` when absent), and the `Origin` header (`none` when absent or not
a string). -/
structure Request where
  method : String
  url : Option String
  origin : Option String

/-- An outgoing response: status code, headers, and the JSON document the
body serialises (`none` for the body-less 204). -/
structure Response where
  statusCode : Nat
  headers : List (String × String)
  body : Option Json

/-- `new URL(req.url, base).pathname` for the origin-relative targets the
node http server supplies: the part before the first `?` or `#`, with the
empty target resolving to `/`. -/
def pathnameOf (u : String) : String :=
  let p : String := ⟨u.data.takeWhile (fun c => c != '?' && c != '#')⟩
  if p == "" then "/" else p

/-- The `http.createServer` request handler: CORS headers on every
response; `OPTIONS` short-circuits to 204 before any URL inspection; a
missing/empty `req.url` gives 400; any other non-GET method gives 405
before path dispatch; then `/healthz`, `/endpoint-status`, and the 404
fallback.  `uptimeSeconds` is `Math.round(process.uptime())` (uptime is
non-negative, so a natural number); `runChecks` is total here, so the 500
`status_check_failed` branch of the source is unreachable in the model. -/
def handleRequest (cfg : Config) (results : Check → ProbeResult) (uptimeSeconds : Nat)
    (now : String) (req : Request) : Response :=
  let requestOrigin := req.origin.getD ""
  let headers := jsonHeaders (ALLOW_ORIGINS cfg) requestOrigin
  if req.method == "OPTIONS" then
    { statusCode := 204, headers := headers, body := none }
  else if req.url.getD "" == "" then
    { statusCode := 400, headers := headers,
      body := some (Json.obj [("error", Json.str "missing_url")]) }
  else
    let pathname := pathnameOf (req.url.getD "")
    if req.method != "GET" then
      { statusCode := 405, headers := headers,
        body := some (Json.obj [("error", Json.str "method_not_allowed")]) }
    else if pathname == "/healthz" then
      { statusCode := 200, headers := headers,
        body := some (Json.obj [("ok", Json.bool true), ("uptime_s", Json.num uptimeSeconds)]) }
    else if pathname == "/endpoint-status" then
      { statusCode := 200, headers := headers,
        body := some (reportToJson (runChecks cfg results now)) }
    else
      { statusCode := 404, headers := headers,
        body := some (Json.obj [("error", Json.str "not_found")]) }

/-- The all-defaults configuration (no environment variables set). -/
def cfgDefault : Config := {}

/-! ## Theorems -/

/-- The `statuses` object is the registry mapped, in order, to the outcome
of each check's guarded probe. -/
theorem runChecksStatuses_eq (cfg : Config) (results : Check → ProbeResult) :
    runChecksStatuses cfg results =
      (CHECKS cfg).map (fun c => (c.id, checkOutcome (tryBody results c))) := rfl

theorem tryBody_congr {r1 r2 : Check → ProbeResult} {c : Check} (h : r1 c = r2 c) :
    tryBody r1 c = tryBody r2 c := by
  unfold tryBody
  rw [h]

theorem kind_of_mem (cfg : Config) (c : Check) (hc : c ∈ CHECKS cfg) :
    c.kind = "jsonrpc" ∨ c.kind = "tendermint" ∨ c.kind = "tcp" := by
  simp only [CHECKS, List.mem_cons, List.not_mem_nil, or_false] at hc
  rcases hc with rfl | rfl | rfl | rfl | rfl | rfl <;> simp

theorem tryBody_of_success {r : Check → ProbeResult} {c : Check} {l : Nat}
    (hk : c.kind = "jsonrpc" ∨ c.kind = "tendermint" ∨ c.kind = "tcp")
    (h : r c = .success l) : tryBody r c = .ok l := by
  unfold tryBody
  rcases hk with hk | hk | hk <;>
    simp [hk, h, liftResult, Bind.bind, Except.bind, Pure.pure, Except.pure]

theorem tryBody_of_failure {r : Check → ProbeResult} {c : Check} {e : Option String}
    (hk : c.kind = "jsonrpc" ∨ c.kind = "tendermint" ∨ c.kind = "tcp")
    (h : r c = .failure e) : tryBody r c = .error e := by
  unfold tryBody
  rcases hk with hk | hk | hk <;>
    simp [hk, h, liftResult, Bind.bind, Except.bind, Pure.pure, Except.pure]

/-- A jsonrpc probe that resolves does so with latency equal to the
wall-clock time at which it settles. -/
theorem probeJsonRpc_latency (fio : Option (Settled FetchResponse)) (T : Nat)
    (s : Settled Nat) (l : Nat) (hs : probeJsonRpc fio T = some s)
    (hres : s.result = Except.ok l) : l = s.time := by
  rcases hw : withTimeout fio T with ⟨t, fres⟩
  rcases fres with e | res
  · simp only [probeJsonRpc, hw, Option.some.injEq] at hs
    subst hs
    simp at hres
  · cases hok : res.ok
    · simp only [probeJsonRpc, hw, hok, Bool.not_false, if_true, Option.some.injEq] at hs
      subst hs
      simp at hres
    · rcases hjb : res.jsonBody with _ | ⟨tj, e | data⟩
      · simp [probeJsonRpc, hw, hok, hjb] at hs
      · simp [probeJsonRpc, hw, hok, hjb] at hs
        subst hs
        simp at hres
      · rcases hge : getField data "error" with _ | errVal
        · simp [probeJsonRpc, hw, hok, hjb, hge] at hs
          subst hs
          simp at hres ⊢
          omega
        · cases htr : truthy errVal
          · simp [probeJsonRpc, hw, hok, hjb, hge, htr] at hs
            subst hs
            simp at hres ⊢
            omega
          · simp [probeJsonRpc, hw, hok, hjb, hge, htr] at hs
            subst hs
            simp at hres

/-- A tendermint probe that resolves does so with latency equal to the
wall-clock time at which it settles. -/
theorem probeTendermintStatus_latency (fio : Option (Settled FetchResponse)) (T : Nat)
    (l : Nat) (hres : (probeTendermintStatus fio T).result = Except.ok l) :
    l = (probeTendermintStatus fio T).time := by
  rcases hw : withTimeout fio T with ⟨t, fres⟩
  rcases fres with e | res
  · simp [probeTendermintStatus, hw] at hres
  · cases hok : res.ok
    · simp [probeTendermintStatus, hw, hok] at hres
    · simp [probeTendermintStatus, hw, hok] at hres ⊢
      omega

/-- A tcp probe that resolves does so with latency equal to the wall-clock
time at which it settles. -/
theorem probeTcp_latency (cio : Option (Settled Bool)) (T : Nat) (l : Nat)
    (hres : (probeTcp cio T).result = Except.ok l) : l = (probeTcp cio T).time := by
  rcases hw : withTimeout cio T with ⟨t, cres⟩
  rcases cres with e | v
  · simp [probeTcp, hw] at hres
  · simp [probeTcp, hw] at hres ⊢
    omega

/-- Reading a registry id out of the `statuses` object yields exactly that
check's guarded outcome. -/
theorem objGet_runChecks (cfg : Config) (r : Check → ProbeResult) (c : Check)
    (hc : c ∈ CHECKS cfg) :
    objGet (runChecksStatuses cfg r) c.id = some (checkOutcome (tryBody r c)) := by
  simp only [CHECKS, List.mem_cons, List.not_mem_nil, or_false] at hc
  rcases hc with rfl | rfl | rfl | rfl | rfl | rfl <;> rfl

theorem resolveAllowedOrigin_star {l : List String} (h : "*" ∈ l) (o : String) :
    resolveAllowedOrigin l o = "*" := by
  rcases l with _ | ⟨x, xs⟩
  · rfl
  · have h' : "*" = x ∨ "*" ∈ xs := by simpa using h
    simp [resolveAllowedOrigin, h']

theorem resolveAllowedOrigin_noOrigin {l : List String} (hne : l ≠ [])
    (h : "*" ∉ l) : resolveAllowedOrigin l "" = l.headD "" := by
  rcases l with _ | ⟨x, xs⟩
  · exact absurd rfl hne
  · have hns : ¬("*" = x ∨ "*" ∈ xs) := by simpa using h
    simp [resolveAllowedOrigin, hns]

theorem resolveAllowedOrigin_echo {l : List String} {o : String} (hstar : "*" ∉ l)
    (ho : o ≠ "") (hm : o ∈ l) : resolveAllowedOrigin l o = o := by
  rcases l with _ | ⟨x, xs⟩
  · simp at hm
  · have hns : ¬("*" = x ∨ "*" ∈ xs) := by simpa using hstar
    have hom : o = x ∨ o ∈ xs := by simpa using hm
    simp [resolveAllowedOrigin, hns, ho, hom]

theorem resolveAllowedOrigin_fallback {l : List String} {o : String} (hne : l ≠ [])
    (hstar : "*" ∉ l) (ho : o ≠ "") (hm : o ∉ l) :
    resolveAllowedOrigin l o = l.headD "" := by
  rcases l with _ | ⟨x, xs⟩
  · exact absurd rfl hne
  · have hns : ¬("*" = x ∨ "*" ∈ xs) := by simpa using hstar
    have hnm : ¬(o = x ∨ o ∈ xs) := by simpa using hm
    simp [resolveAllowedOrigin, hns, ho, hnm]

/-- C3: CORS origin resolution.  An empty allow-list resolves to `"*"`; an
allow-list containing `"*"` resolves to `"*"`; with a non-empty,
non-wildcard allow-list, an absent request Origin resolves to the first
configured origin, a listed request Origin is echoed exactly, and an
unlisted request Origin resolves to the first configured origin — never
to the request's own origin. -/
theorem C3_cors_resolution (l : List String) (o : String) :
    (l = [] → resolveAllowedOrigin l o = "*")
    ∧ ("*" ∈ l → resolveAllowedOrigin l o = "*")
    ∧ (l ≠ [] → "*" ∉ l → resolveAllowedOrigin l "" = l.headD "")
    ∧ ("*" ∉ l → o ≠ "" → o ∈ l → resolveAllowedOrigin l o = o)
    ∧ (l ≠ [] → "*" ∉ l → o ≠ "" → o ∉ l →
        resolveAllowedOrigin l o = l.headD "" ∧ resolveAllowedOrigin l o ≠ o) := by
  refine ⟨fun h => by subst h; rfl,
    fun h => resolveAllowedOrigin_star h o,
    fun hne h => resolveAllowedOrigin_noOrigin hne h,
    fun hstar ho hm => resolveAllowedOrigin_echo hstar ho hm,
    fun hne hstar ho hm => ⟨resolveAllowedOrigin_fallback hne hstar ho hm, ?_⟩⟩
  rw [resolveAllowedOrigin_fallback hne hstar ho hm]
  intro heq
  rcases l with _ | ⟨x, xs⟩
  · exact absurd rfl hne
  · exact hm (heq ▸ List.mem_cons_self x xs)

theorem C3_cors_resolution_witness :
    resolveAllowedOrigin ["https://a.com", "https://b.com"] "https://b.com" = "https://b.com"
    ∧ resolveAllowedOrigin ["https://a.com", "https://b.com"] "https://evil.com"
        = "https://a.com"
    ∧ resolveAllowedOrigin [] "https://evil.com" = "*" := by
  refine ⟨(C3_cors_resolution ["https://a.com", "https://b.com"] "https://b.com").2.2.2.1
      (by decide) (by decide) (by decide),
    ((C3_cors_resolution ["https://a.com", "https://b.com"] "https://evil.com").2.2.2.2
      (by decide) (by decide) (by decide) (by decide)).1,
    (C3_cors_resolution [] "https://evil.com").1 rfl⟩

/-- Every branch of the request handler responds with the per-request CORS
headers computed from the configured allow-list and the request's Origin. -/
theorem handleRequest_headers (cfg : Config) (results : Check → ProbeResult)
    (uptimeSeconds : Nat) (now : String) (req : Request) :
    (handleRequest cfg results uptimeSeconds now req).headers =
      jsonHeaders (ALLOW_ORIGINS cfg) (req.origin.getD "") := by
  unfold handleRequest
  dsimp only
  repeat' split
  all_goals rfl

/-- C10: the allow-list splits `CORS_ORIGIN` on commas, trims each entry,
and drops empties — so a padded entry matches the unpadded request Origin
exactly, and a `CORS_ORIGIN` made only of commas and whitespace (but not
the empty string, which is falsy and falls back to the default) yields an
empty allow-list, making every response carry
`access-control-allow-origin: *`. -/
theorem C10_allowlist_construction (s : String) :
    (∀ e, e ∈ jsSplitOnComma s → jsTrim e ≠ "" → jsTrim e ∈ allowOriginsOf s)
    ∧ (∀ e o, e ∈ jsSplitOnComma s → jsTrim e = o → o ≠ "" →
        "*" ∉ allowOriginsOf s → resolveAllowedOrigin (allowOriginsOf s) o = o)
    ∧ ((∀ e, e ∈ jsSplitOnComma s → jsTrim e = "") → allowOriginsOf s = [])
    ∧ ((∀ e, e ∈ jsSplitOnComma s → jsTrim e = "") → s ≠ "" →
        ∀ cfg results uptimeSeconds now req, cfg.CORS_ORIGIN = some s →
          ("access-control-allow-origin", "*") ∈
            (handleRequest cfg results uptimeSeconds now req).headers) := by
  have hmem : ∀ e, e ∈ jsSplitOnComma s → jsTrim e ≠ "" → jsTrim e ∈ allowOriginsOf s := by
    intro e he hne
    exact List.mem_filter.mpr ⟨List.mem_map_of_mem jsTrim he, by simpa using hne⟩
  have hnil : (∀ e, e ∈ jsSplitOnComma s → jsTrim e = "") → allowOriginsOf s = [] := by
    intro h
    rw [allowOriginsOf, List.filter_eq_nil_iff]
    intro a ha
    rcases List.mem_map.mp ha with ⟨e, he, rfl⟩
    simp [h e he]
  refine ⟨hmem, ?_, hnil, ?_⟩
  · intro e o he ht ho hstar
    refine resolveAllowedOrigin_echo hstar ho ?_
    exact ht ▸ hmem e he (by rw [ht]; exact ho)
  · intro h hs0 cfg results uptimeSeconds now req hcors
    rw [handleRequest_headers]
    have hbe : (s == "") = false := by simpa using hs0
    have hall : ALLOW_ORIGINS cfg = [] := by
      rw [ALLOW_ORIGINS, CORS_ORIGIN, hcors]
      simpa [envOr, hbe] using hnil h
    rw [jsonHeaders, hall]
    simp [resolveAllowedOrigin]

theorem C10_allowlist_construction_witness :
    resolveAllowedOrigin (allowOriginsOf " https://a.com ,https://b.com") "https://a.com"
      = "https://a.com"
    ∧ allowOriginsOf " ,," = []
    ∧ ("access-control-allow-origin", "*") ∈
        (handleRequest { CORS_ORIGIN := some " ,," } (fun _ => .failure none) 0 "t"
          { method := "GET", url := some "/healthz", origin := none }).headers := by
  refine ⟨(C10_allowlist_construction " https://a.com ,https://b.com").2.1
      " https://a.com " "https://a.com" (by decide) (by decide) (by decide) (by decide),
    (C10_allowlist_construction " ,,").2.2.1 (by decide),
    (C10_allowlist_construction " ,,").2.2.2 (by decide) (by decide)
      { CORS_ORIGIN := some " ,," } (fun _ => .failure none) 0 "t"
      { method := "GET", url := some "/healthz", origin := none } rfl⟩

/-- C1: every execution of `runChecks()` returns a `statuses` object whose
keys are exactly the registry descriptors' ids, in registry order, with no
extra keys, no omissions, and no duplicates, whatever each probe's result
is. -/
theorem C1_statuses_exactly_registry_ids (cfg : Config) (results : Check → ProbeResult)
    (now : String) :
    (runChecks cfg results now).statuses.map Prod.fst = (CHECKS cfg).map Check.id
    ∧ ((runChecks cfg results now).statuses.map Prod.fst).Nodup := by
  refine ⟨rfl, ?_⟩
  show (["infinite-evm", "infinite-comet", "infinite-grpc", "infinite-evm-testnet",
    "infinite-comet-testnet", "infinite-grpc-testnet"] : List String).Nodup
  decide

/-- C5: checks are independent.  A check's entry in `statuses` depends only
on that check's own probe result; a probe failure (thrown error or
timeout rejection) is converted into a structured DOWN entry for that
check alone; and the loop always produces one entry per registry
descriptor, never aborting early. -/
theorem C5_checks_independent (cfg : Config) (r1 r2 : Check → ProbeResult) (c : Check)
    (hc : c ∈ CHECKS cfg) :
    (r1 c = r2 c →
      objGet (runChecksStatuses cfg r1) c.id = objGet (runChecksStatuses cfg r2) c.id)
    ∧ (∀ e, r1 c = .failure e →
      objGet (runChecksStatuses cfg r1) c.id =
        some { status := "DOWN", detail := caughtDetail e, latency_ms := none })
    ∧ (runChecksStatuses cfg r1).length = (CHECKS cfg).length := by
  refine ⟨fun h => ?_, fun e h => ?_, ?_⟩
  · rw [objGet_runChecks cfg r1 c hc, objGet_runChecks cfg r2 c hc, tryBody_congr h]
  · rw [objGet_runChecks cfg r1 c hc, tryBody_of_failure (kind_of_mem cfg c hc) h]
    rfl
  · rw [runChecksStatuses_eq]
    exact List.length_map _ _

theorem C5_checks_independent_witness :
    objGet (runChecksStatuses cfgDefault (fun _ => .failure (some "boom"))) "infinite-evm"
      = some { status := "DOWN", detail := "boom", latency_ms := none } := by
  exact (C5_checks_independent cfgDefault (fun _ => .failure (some "boom"))
    (fun _ => .failure (some "boom"))
    ⟨"infinite-evm", "jsonrpc", some "https://evm-rpc.infinitedrive.xyz", none, none⟩
    (by decide)).2.1 (some "boom") rfl

/-- C6: outcome shapes.  A probe that resolves with latency `l` yields an
UP entry with `latency_ms = l` and detail `"Latency <l>ms"`; a probe that
throws yields a DOWN entry with `latency_ms` null and detail the error's
message (or `"request failed"` for a non-Error throw); and each probe's
resolved latency equals the wall-clock milliseconds from probe start to
its settlement. -/
theorem C6_probe_outcomes (cfg : Config) (r : Check → ProbeResult) (c : Check)
    (hc : c ∈ CHECKS cfg) :
    (∀ l, r c = .success l →
      objGet (runChecksStatuses cfg r) c.id =
        some { status := "UP", detail := "Latency " ++ toString l ++ "ms",
               latency_ms := some l })
    ∧ (∀ e, r c = .failure e →
      objGet (runChecksStatuses cfg r) c.id =
        some { status := "DOWN", detail := caughtDetail e, latency_ms := none })
    ∧ (∀ fio T s l, probeJsonRpc fio T = some s → s.result = .ok l → l = s.time)
    ∧ (∀ fio T l, (probeTendermintStatus fio T).result = .ok l →
        l = (probeTendermintStatus fio T).time)
    ∧ (∀ cio T l, (probeTcp cio T).result = .ok l → l = (probeTcp cio T).time) := by
  refine ⟨fun l h => ?_, fun e h => ?_, ?_, ?_, ?_⟩
  · rw [objGet_runChecks cfg r c hc, tryBody_of_success (kind_of_mem cfg c hc) h]
    rfl
  · rw [objGet_runChecks cfg r c hc, tryBody_of_failure (kind_of_mem cfg c hc) h]
    rfl
  · exact fun fio T s l hs hres => probeJsonRpc_latency fio T s l hs hres
  · exact fun fio T l hres => probeTendermintStatus_latency fio T l hres
  · exact fun cio T l hres => probeTcp_latency cio T l hres

theorem C6_probe_outcomes_witness :
    objGet (runChecksStatuses cfgDefault
        (fun c => if c.kind == "jsonrpc" then .success 42
                  else .failure (some "connect ECONNREFUSED")))
      "infinite-evm"
      = some { status := "UP", detail := "Latency 42ms", latency_ms := some 42 }
    ∧ objGet (runChecksStatuses cfgDefault
        (fun c => if c.kind == "jsonrpc" then .success 42
                  else .failure (some "connect ECONNREFUSED")))
      "infinite-grpc"
      = some { status := "DOWN", detail := "connect ECONNREFUSED", latency_ms := none } := by
  constructor
  · exact (C6_probe_outcomes cfgDefault
      (fun c => if c.kind == "jsonrpc" then .success 42
                else .failure (some "connect ECONNREFUSED"))
      ⟨"infinite-evm", "jsonrpc", some "https://evm-rpc.infinitedrive.xyz", none, none⟩
      (by decide)).1 42 rfl
  · exact (C6_probe_outcomes cfgDefault
      (fun c => if c.kind == "jsonrpc" then .success 42
                else .failure (some "connect ECONNREFUSED"))
      ⟨"infinite-grpc", "tcp", none, some "grpc.infinitedrive.xyz", some 443⟩
      (by decide)).2.1 (some "connect ECONNREFUSED") rfl

/-- C7: `GET /healthz` always responds 200 with body
`{ok: true, uptime_s: <n>}` where `uptime_s` is the rounded process
uptime in seconds (a non-negative integer, hence `Nat` here), whatever
every probe's outcome is. -/
theorem C7_healthz (cfg : Config) (results : Check → ProbeResult) (uptimeSeconds : Nat)
    (now : String) (req : Request) (u : String) (hm : req.method = "GET")
    (hu : req.url = some u) (hp : pathnameOf u = "/healthz") :
    handleRequest cfg results uptimeSeconds now req =
      { statusCode := 200,
        headers := jsonHeaders (ALLOW_ORIGINS cfg) (req.origin.getD ""),
        body := some (Json.obj
          [("ok", Json.bool true), ("uptime_s", Json.num uptimeSeconds)]) } := by
  have hu0 : u ≠ "" := by
    intro h
    subst h
    exact absurd hp (by decide)
  have hbu : (u == "") = false := by simpa using hu0
  unfold handleRequest
  rw [hm, hu]
  simp [hbu, hp]

theorem C7_healthz_witness :
    handleRequest cfgDefault (fun _ => .failure none) 5 "t"
      { method := "GET", url := some "/healthz", origin := none } =
      { statusCode := 200,
        headers := jsonHeaders (ALLOW_ORIGINS cfgDefault) "",
        body := some (Json.obj
          [("ok", Json.bool true), ("uptime_s", Json.num 5)]) } :=
  C7_healthz cfgDefault (fun _ => .failure none) 5 "t"
    { method := "GET", url := some "/healthz", origin := none } "/healthz" rfl rfl (by decide)

/-- C9: the handler checks the HTTP method before dispatching on the path:
every request with a present, non-empty URL whose method is neither
OPTIONS nor GET receives 405 method_not_allowed regardless of its path
(including paths matching no route), and OPTIONS receives 204 with no
body before any URL or path inspection (even with no URL at all). -/
theorem C9_method_checked_before_path (cfg : Config) (results : Check → ProbeResult)
    (uptimeSeconds : Nat) (now : String) (req : Request) :
    (∀ u, req.method ≠ "OPTIONS" → req.method ≠ "GET" → req.url = some u → u ≠ "" →
      handleRequest cfg results uptimeSeconds now req =
        { statusCode := 405,
          headers := jsonHeaders (ALLOW_ORIGINS cfg) (req.origin.getD ""),
          body := some (Json.obj [("error", Json.str "method_not_allowed")]) })
    ∧ (req.method = "OPTIONS" →
      handleRequest cfg results uptimeSeconds now req =
        { statusCode := 204,
          headers := jsonHeaders (ALLOW_ORIGINS cfg) (req.origin.getD ""),
          body := none }) := by
  constructor
  · intro u hno hng hu hu0
    have hbe : (req.method == "OPTIONS") = false := by simpa using hno
    have hbg : (req.method == "GET") = false := by simpa using hng
    have hbu : (u == "") = false := by simpa using hu0
    unfold handleRequest
    rw [hu]
    simp [hbe, hbg, hbu, hng]
  · intro h
    unfold handleRequest
    rw [h]
    simp

theorem C9_method_checked_before_path_witness :
    handleRequest cfgDefault (fun _ => .failure none) 0 "t"
      { method := "POST", url := some "/endpoint-status", origin := none } =
      { statusCode := 405, headers := jsonHeaders (ALLOW_ORIGINS cfgDefault) "",
        body := some (Json.obj [("error", Json.str "method_not_allowed")]) }
    ∧ handleRequest cfgDefault (fun _ => .failure none) 0 "t"
      { method := "OPTIONS", url := none, origin := none } =
      { statusCode := 204, headers := jsonHeaders (ALLOW_ORIGINS cfgDefault) "",
        body := none } :=
  ⟨(C9_method_checked_before_path cfgDefault (fun _ => .failure none) 0 "t"
      { method := "POST", url := some "/endpoint-status", origin := none }).1
      "/endpoint-status" (by decide) (by decide) rfl (by decide),
   (C9_method_checked_before_path cfgDefault (fun _ => .failure none) 0 "t"
      { method := "OPTIONS", url := none, origin := none }).2 rfl⟩

/-- C8 fails as stated: the method check precedes the path dispatch, so a
POST to an unrecognized path receives 405 method_not_allowed rather than
the claimed 404 not_found, and OPTIONS on the known path /healthz
receives 204 rather than the claimed 405. -/
theorem C8_counterexample :
    pathnameOf "/unknown-path" ≠ "/healthz"
    ∧ pathnameOf "/unknown-path" ≠ "/endpoint-status"
    ∧ (handleRequest cfgDefault (fun _ => .failure none) 0 "t"
        { method := "POST", url := some "/unknown-path", origin := none }).statusCode = 405
    ∧ (handleRequest cfgDefault (fun _ => .failure none) 0 "t"
        { method := "POST", url := some "/unknown-path", origin := none }).body
        = some (Json.obj [("error", Json.str "method_not_allowed")])
    ∧ (handleRequest cfgDefault (fun _ => .failure none) 0 "t"
        { method := "OPTIONS", url := some "/healthz", origin := none }).statusCode = 204 :=
  ⟨by decide, by decide, rfl, rfl, rfl⟩

/-- C8 (amended): for requests carrying a present, non-empty URL — a GET
whose path matches neither /healthz nor /endpoint-status receives 404
with body {error: not_found}; and any non-GET, non-OPTIONS method
receives 405 with body {error: method_not_allowed} regardless of its path
(the method is checked before the path; OPTIONS is answered 204 earlier
still). -/
theorem C8_amended (cfg : Config) (results : Check → ProbeResult) (uptimeSeconds : Nat)
    (now : String) (req : Request) (u : String) :
    (req.method = "GET" → req.url = some u → u ≠ "" →
      pathnameOf u ≠ "/healthz" → pathnameOf u ≠ "/endpoint-status" →
      handleRequest cfg results uptimeSeconds now req =
        { statusCode := 404,
          headers := jsonHeaders (ALLOW_ORIGINS cfg) (req.origin.getD ""),
          body := some (Json.obj [("error", Json.str "not_found")]) })
    ∧ (req.method ≠ "GET" → req.method ≠ "OPTIONS" → req.url = some u → u ≠ "" →
      handleRequest cfg results uptimeSeconds now req =
        { statusCode := 405,
          headers := jsonHeaders (ALLOW_ORIGINS cfg) (req.origin.getD ""),
          body := some (Json.obj [("error", Json.str "method_not_allowed")]) }) := by
  constructor
  · intro hm hu hu0 hp1 hp2
    have hbu : (u == "") = false := by simpa using hu0
    have hb1 : (pathnameOf u == "/healthz") = false := by simpa using hp1
    have hb2 : (pathnameOf u == "/endpoint-status") = false := by simpa using hp2
    unfold handleRequest
    rw [hm, hu]
    simp [hbu, hb1, hb2]
  · intro hng hno hu hu0
    have hbe : (req.method == "OPTIONS") = false := by simpa using hno
    have hbg : (req.method == "GET") = false := by simpa using hng
    have hbu : (u == "") = false := by simpa using hu0
    unfold handleRequest
    rw [hu]
    simp [hbe, hbg, hbu, hng]

theorem C8_amended_witness :
    handleRequest cfgDefault (fun _ => .failure none) 0 "t"
      { method := "GET", url := some "/unknown-path", origin := none } =
      { statusCode := 404, headers := jsonHeaders (ALLOW_ORIGINS cfgDefault) "",
        body := some (Json.obj [("error", Json.str "not_found")]) }
    ∧ handleRequest cfgDefault (fun _ => .failure none) 0 "t"
      { method := "DELETE", url := some "/healthz", origin := none } =
      { statusCode := 405, headers := jsonHeaders (ALLOW_ORIGINS cfgDefault) "",
        body := some (Json.obj [("error", Json.str "method_not_allowed")]) } :=
  ⟨(C8_amended cfgDefault (fun _ => .failure none) 0 "t"
      { method := "GET", url := some "/unknown-path", origin := none } "/unknown-path").1
      rfl rfl (by decide) (by decide) (by decide),
   (C8_amended cfgDefault (fun _ => .failure none) 0 "t"
      { method := "DELETE", url := some "/healthz", origin := none } "/healthz").2
      (by decide) (by decide) rfl (by decide)⟩

theorem withTimeout_timeout {α : Type} {p : Option (Settled α)} {T : Nat}
    (h : p = none ∨ ∀ s, p = some s → T < s.time) :
    withTimeout p T = ⟨T, .error (some (timeoutMessage T))⟩ := by
  rcases p with _ | s
  · rfl
  · have ht : T < s.time := by
      rcases h with h | h
      · simp at h
      · exact h s rfl
    simp [withTimeout, Nat.not_le.mpr ht]

/-- C2 fails as stated for the jsonrpc kind: `withTimeout` guards only the
fetch, so with the fetch settling at 100ms (ok, status 200) and the body
read settling 10000ms later, the probe resolves at 10100ms — well beyond
the 7000ms timeout — yet its outcome is UP "Latency 10100ms", not the
claimed DOWN timeout entry. -/
theorem C2_counterexample :
    probeJsonRpc
        (some ⟨100, .ok { status := 200, jsonBody := some ⟨10000, .ok (Json.obj [])⟩ }⟩)
        7000
      = some ⟨10100, .ok 10100⟩
    ∧ 7000 < 10100
    ∧ checkOutcome (.ok 10100) =
        { status := "UP", detail := "Latency 10100ms", latency_ms := some 10100 }
    ∧ ({ status := "UP", detail := "Latency 10100ms", latency_ms := some 10100 } : Outcome)
        ≠ { status := "DOWN", detail := timeoutMessage 7000, latency_ms := none } :=
  ⟨rfl, by decide, by decide, by decide⟩

/-- C2 (amended): an operation guarded by `withTimeout` that does not
settle within REQUEST_TIMEOUT_MS loses the race, the probe rejects with
detail exactly "timeout after <N>ms" (N the configured timeout), and the
check's outcome is DOWN with that detail and `latency_ms` null.  For the
tendermint and tcp probes the guarded operation is the whole probe; for
the jsonrpc probe only the fetch is guarded — an ok response whose body
read finishes after the timeout still yields UP (see the
counterexample). -/
theorem C2_amended (T : Nat) :
    (∀ fio : Option (Settled FetchResponse),
      (fio = none ∨ ∀ s, fio = some s → T < s.time) →
      probeTendermintStatus fio T = ⟨T, .error (some (timeoutMessage T))⟩)
    ∧ (∀ cio : Option (Settled Bool),
      (cio = none ∨ ∀ s, cio = some s → T < s.time) →
      probeTcp cio T = ⟨T, .error (some (timeoutMessage T))⟩)
    ∧ (∀ fio : Option (Settled FetchResponse),
      (fio = none ∨ ∀ s, fio = some s → T < s.time) →
      probeJsonRpc fio T = some ⟨T, .error (some (timeoutMessage T))⟩)
    ∧ checkOutcome (.error (some (timeoutMessage T))) =
        { status := "DOWN", detail := timeoutMessage T, latency_ms := none } := by
  refine ⟨fun fio h => ?_, fun cio h => ?_, fun fio h => ?_, rfl⟩
  · simp [probeTendermintStatus, withTimeout_timeout h]
  · simp [probeTcp, withTimeout_timeout h]
  · simp [probeJsonRpc, withTimeout_timeout h]

theorem C2_amended_witness :
    probeTendermintStatus none 7000 = ⟨7000, .error (some "timeout after 7000ms")⟩
    ∧ probeTcp none 7000 = ⟨7000, .error (some "timeout after 7000ms")⟩
    ∧ probeJsonRpc none 7000 = some ⟨7000, .error (some "timeout after 7000ms")⟩ :=
  ⟨(C2_amended 7000).1 none (Or.inl rfl),
   (C2_amended 7000).2.1 none (Or.inl rfl),
   (C2_amended 7000).2.2.1 none (Or.inl rfl)⟩

/-- C4 fails as stated: the code tests `data?.error` for JS truthiness,
not field presence, so an HTTP 200 response whose parsed body is
`{"error": null}` contains an `error` field yet the probe resolves UP. -/
theorem C4_counterexample :
    getField (Json.obj [("error", Json.null)]) "error" = some Json.null
    ∧ probeJsonRpc
        (some ⟨10, .ok ⟨200, some ⟨5, .ok (Json.obj [("error", Json.null)])⟩⟩⟩) 7000
      = some ⟨15, .ok 15⟩
    ∧ checkOutcome (.ok 15) =
        { status := "UP", detail := "Latency 15ms", latency_ms := some 15 } :=
  ⟨rfl, rfl, by decide⟩

/-- C4 (amended): a jsonrpc probe whose fetch settles in time with an HTTP
status in the success range and whose parsed body carries a truthy
`error` field rejects with detail `String(error.message)` when the
message is truthy and the fallback "json-rpc error" when the message is
absent or falsy, giving a DOWN outcome with that detail; with the error
field absent or falsy it resolves UP; and the probe resolves (is Up) only
when the fetch settled within the timeout with a status in the 200-299
range and the parsed body's `error` field is absent or falsy. -/
theorem C4_amended (T tf tj : Nat) (res : FetchResponse) (data : Json) :
    (res.jsonBody = some ⟨tj, .ok data⟩ → tf ≤ T → res.ok = true →
      (∀ errVal, getField data "error" = some errVal → truthy errVal = true →
        probeJsonRpc (some ⟨tf, .ok res⟩) T =
          some ⟨tf + tj, .error (some (probeJsonRpc.jsonRpcErrorDetail errVal))⟩
        ∧ checkOutcome (.error (some (probeJsonRpc.jsonRpcErrorDetail errVal))) =
            { status := "DOWN", detail := probeJsonRpc.jsonRpcErrorDetail errVal,
              latency_ms := none })
      ∧ (truthyOpt (getField data "error") = false →
        probeJsonRpc (some ⟨tf, .ok res⟩) T = some ⟨tf + tj, .ok (tf + tj)⟩))
    ∧ (∀ errVal m, getField errVal "message" = some m → truthy m = true →
        probeJsonRpc.jsonRpcErrorDetail errVal = jsToString m)
    ∧ (∀ errVal, truthyOpt (getField errVal "message") = false →
        probeJsonRpc.jsonRpcErrorDetail errVal = "json-rpc error")
    ∧ (∀ fio s l, probeJsonRpc fio T = some s → s.result = Except.ok l →
        ∃ f resp js dataBody, fio = some f ∧ f.time ≤ T ∧ f.result = .ok resp
          ∧ (200 ≤ resp.status ∧ resp.status ≤ 299)
          ∧ resp.jsonBody = some js ∧ js.result = .ok dataBody
          ∧ truthyOpt (getField dataBody "error") = false) := by
  refine ⟨fun hjb htT hok => ?_, fun errVal m hgm htm => ?_, fun errVal hfalse => ?_, ?_⟩
  · have hw : withTimeout (some ⟨tf, Except.ok res⟩) T = ⟨tf, .ok res⟩ := by
      simp [withTimeout, htT]
    constructor
    · intro errVal hge htr
      exact ⟨by simp [probeJsonRpc, hw, hok, hjb, hge, htr], rfl⟩
    · intro hfalse
      rcases hge : getField data "error" with _ | errVal
      · simp [probeJsonRpc, hw, hok, hjb, hge]
      · have htr : truthy errVal = false := by simpa [truthyOpt, hge] using hfalse
        simp [probeJsonRpc, hw, hok, hjb, hge, htr]
  · simp [probeJsonRpc.jsonRpcErrorDetail, hgm, htm]
  · rcases hgm : getField errVal "message" with _ | m
    · simp [probeJsonRpc.jsonRpcErrorDetail, hgm]
    · have htm : truthy m = false := by simpa [truthyOpt, hgm] using hfalse
      simp [probeJsonRpc.jsonRpcErrorDetail, hgm, htm]
  · intro fio s l hs hres
    rcases fio with _ | ⟨tf2, fres⟩
    · simp [probeJsonRpc, withTimeout] at hs
      subst hs
      simp at hres
    · by_cases hT : tf2 ≤ T
      · have hwf : withTimeout (some ⟨tf2, fres⟩) T = ⟨tf2, fres⟩ := by
          simp [withTimeout, hT]
        rcases fres with e | resp
        · simp [probeJsonRpc, hwf] at hs
          subst hs
          simp at hres
        · cases hok : resp.ok
          · simp [probeJsonRpc, hwf, hok] at hs
            subst hs
            simp at hres
          · rcases hjb : resp.jsonBody with _ | ⟨tj2, e2 | data2⟩
            · simp [probeJsonRpc, hwf, hok, hjb] at hs
            · simp [probeJsonRpc, hwf, hok, hjb] at hs
              subst hs
              simp at hres
            · have hrange : 200 ≤ resp.status ∧ resp.status ≤ 299 := by
                simpa [FetchResponse.ok] using hok
              rcases hge : getField data2 "error" with _ | errVal
              · exact ⟨⟨tf2, .ok resp⟩, resp, ⟨tj2, .ok data2⟩, data2, rfl, hT, rfl,
                  hrange, hjb, rfl, by simp [truthyOpt, hge]⟩
              · cases htr : truthy errVal
                · exact ⟨⟨tf2, .ok resp⟩, resp, ⟨tj2, .ok data2⟩, data2, rfl, hT, rfl,
                    hrange, hjb, rfl, by simp [truthyOpt, hge, htr]⟩
                · simp [probeJsonRpc, hwf, hok, hjb, hge, htr] at hs
                  subst hs
                  simp at hres
      · have hwf : withTimeout (some ⟨tf2, fres⟩) T =
            ⟨T, .error (some (timeoutMessage T))⟩ := by
          simp [withTimeout, hT]
        simp [probeJsonRpc, hwf] at hs
        subst hs
        simp at hres

theorem C4_amended_witness :
    probeJsonRpc
        (some ⟨10, .ok
          ⟨200, some ⟨5, .ok (Json.obj [("error", Json.obj [("message", Json.str "boom")])])⟩⟩⟩)
        7000
      = some ⟨15, .error (some "boom")⟩
    ∧ probeJsonRpc.jsonRpcErrorDetail (Json.obj [("message", Json.str "boom")]) = "boom" := by
  have h := C4_amended 7000 10 5
    ⟨200, some ⟨5, .ok (Json.obj [("error", Json.obj [("message", Json.str "boom")])])⟩⟩
    (Json.obj [("error", Json.obj [("message", Json.str "boom")])])
  have hd : probeJsonRpc.jsonRpcErrorDetail (Json.obj [("message", Json.str "boom")])
      = "boom" :=
    h.2.1 (Json.obj [("message", Json.str "boom")]) (Json.str "boom") rfl rfl
  have h1 := (h.1 rfl (by decide) rfl).1 (Json.obj [("message", Json.str "boom")]) rfl rfl
  refine ⟨?_, hd⟩
  rw [h1.1, hd]

end StatusProxy
